import Mathlib

set_option maxRecDepth 8000

/-!
# Verification of the cover-letter-agent backend

A shallow embedding of the document-understanding and matching pipeline of the
cover-letter-agent repository (`backend/models/skills_matcher.py`,
`backend/models/resume_parser.py`, `backend/models/job_analyzer.py`,
`backend/models/cover_letter_generator.py`), together with theorems settling the
frozen claims about it.

Modelling conventions:
* Python strings are modelled as `List Char` (`Str`); character classification
  (lower-casing, alphabetic, digits, whitespace) follows the ASCII behaviour,
  which coincides with Python on the ASCII inputs the pipeline manipulates.
* Python dictionaries built with `dict.get(key, default)` are modelled with an
  outer `Option` for key presence; a key that is present but maps to `None` is
  `some none`, which is distinct from an absent key (`none`).
* `difflib.SequenceMatcher` is embedded without the autojunk heuristic, which
  only activates on strings of 200 characters or more; all skill strings the
  pipeline compares are far shorter, where the two definitions agree.
* Where Python iterates over an unordered `set`, the model uses a deterministic
  duplicate-removing function; the claims below depend only on membership.
-/

/-- Python strings, modelled as lists of characters. -/
abbrev Str := List Char

/-- Python `str.lower()` (ASCII). -/
def toLowerStr (s : Str) : Str := s.map Char.toLower

/-- Python whitespace characters (`str.strip` / `str.split` defaults). -/
def isPyWs (c : Char) : Bool :=
  c = ' ' || c = '\t' || c = '\n' || c = '\r' || c = '\x0b' || c = '\x0c'

/-- Python `str.strip()`. -/
def pyStrip (s : Str) : Str := ((s.dropWhile isPyWs).reverse.dropWhile isPyWs).reverse

/-- Helper for `pyTitle`: the flag records whether the previous character was cased. -/
def pyTitleAux : Bool → Str → Str
  | _, [] => []
  | prevCased, c :: rest =>
    if c.isAlpha then (if prevCased then c.toLower else c.toUpper) :: pyTitleAux true rest
    else c :: pyTitleAux false rest

/-- Python `str.title()`: uppercase each character that follows a non-cased
character, lowercase the other cased characters. -/
def pyTitle (s : Str) : Str := pyTitleAux false s

/-- Python substring test `needle in hay`. The empty needle is in every string. -/
def isSubstr (needle hay : Str) : Bool :=
  (List.range (hay.length + 1)).any fun i => needle.isPrefixOf (hay.drop i)

/-- Split on maximal runs of separator characters, keeping boundary empties but
merging adjacent separators, like `re.split` with a `[...]+` character class. -/
def splitSepRuns (p : Char → Bool) : Str → List Str
  | [] => [[]]
  | [c] => if p c then [[], []] else [[c]]
  | c :: d :: rest =>
    let r := splitSepRuns p (d :: rest)
    if p c then (if p d then r else [] :: r)
    else
      match r with
      | t :: ts => (c :: t) :: ts
      | [] => [[c]]

/-- Python `str.split('\n')`: split on every single newline, keeping empties. -/
def splitLinesNl : Str → List Str
  | [] => [[]]
  | '\n' :: rest => [] :: splitLinesNl rest
  | c :: rest =>
    match splitLinesNl rest with
    | t :: ts => (c :: t) :: ts
    | [] => [[c]]

/-- Python `str.split('\n\n')`: split on each non-overlapping blank-line pair. -/
def splitOnBlankPair : Str → List Str
  | '\n' :: '\n' :: rest => [] :: splitOnBlankPair rest
  | c :: rest =>
    match splitOnBlankPair rest with
    | t :: ts => (c :: t) :: ts
    | [] => [[c]]
  | [] => [[]]

/-- Python `str.split()` with no argument: split on whitespace runs, dropping empties. -/
def pySplitWs (s : Str) : List Str := (splitSepRuns isPyWs s).filter (fun t => t ≠ [])

/-- Python `sep.join(items)`. -/
def joinSep (sep : Str) : List Str → Str
  | [] => []
  | [x] => x
  | x :: y :: ys => x ++ sep ++ joinSep sep (y :: ys)

/-- Python `list(set(items))`: deduplication.  CPython iterates a set in hash
order; the model keeps one representative per element deterministically, and the
claims below only use membership, on which every order agrees. -/
def pyListSet : List Str → List Str
  | [] => []
  | x :: xs => if x ∈ pyListSet xs then pyListSet xs else x :: pyListSet xs

/-- Python `str.isdigit()` (ASCII): non-empty and all digits. -/
def pyIsDigit (s : Str) : Bool := s ≠ [] && s.all Char.isDigit

/-- Helper for `pyCount`, fuelled by the remaining length of the haystack. -/
def pyCountAux (needle : Str) : Nat → Str → Nat
  | 0, _ => 0
  | _, [] => 0
  | fuel + 1, c :: rest =>
    if needle.isPrefixOf (c :: rest) then
      1 + pyCountAux needle fuel (rest.drop (needle.length - 1))
    else pyCountAux needle fuel rest

/-- Python `hay.count(needle)`: non-overlapping occurrences, scanned from the
left; the empty needle counts `len(hay) + 1` times, as in CPython. -/
def pyCount (hay needle : Str) : Nat :=
  if needle = [] then hay.length + 1 else pyCountAux needle hay.length hay

/-- `s` occurs as a contiguous substring of `t` (propositional form). -/
def SubstrOf (s t : Str) : Prop := ∃ p q, t = p ++ s ++ q

/-! ## SkillsMatcher (`backend/models/skills_matcher.py`) -/

/-- The fixed synonym table `SkillsMatcher.skill_synonyms`. -/
def skill_synonyms : List (Str × List Str) :=
  [("javascript".data, ["js".data, "node.js".data, "nodejs".data]),
   ("python".data, ["py".data]),
   ("machine learning".data, ["ml".data, "artificial intelligence".data, "ai".data]),
   ("user interface".data, ["ui".data, "frontend".data]),
   ("user experience".data, ["ux".data]),
   ("database".data, ["db".data, "databases".data]),
   ("sql".data, ["mysql".data, "postgresql".data, "sqlite".data]),
   ("cloud computing".data, ["aws".data, "azure".data, "gcp".data, "cloud".data]),
   ("react".data, ["reactjs".data, "react.js".data]),
   ("angular".data, ["angularjs".data, "angular.js".data]),
   ("vue".data, ["vuejs".data, "vue.js".data])]

/-- `SkillsMatcher._check_synonym_match`: the loop returns `True` as soon as some
table entry is associated with the required skill and has its main name or one of
its synonyms in the resume-skill list. -/
def check_synonym_match (req_skill : Str) (resume_skills : List Str) : Bool :=
  skill_synonyms.any fun ms =>
    (req_skill == ms.1 || ms.2.contains req_skill) &&
    (resume_skills.contains ms.1 || ms.2.any fun synonym => resume_skills.contains synonym)

/-- Length of the longest common prefix of two strings. -/
def lcpLen : Str → Str → Nat
  | a :: as, b :: bs => if a = b then lcpLen as bs + 1 else 0
  | _, _ => 0

/-- `difflib.SequenceMatcher.find_longest_match` on the index ranges
`[alo, ahi)` × `[blo, bhi)` (no junk): the longest matching block, ties broken by
the smallest start in `a`, then the smallest start in `b`; returned as
`(i, j, size)`. -/
def findLongestBlock (a b : Str) (alo ahi blo bhi : Nat) : Nat × Nat × Nat :=
  (List.range (ahi - alo)).foldl
    (fun best di =>
      (List.range (bhi - blo)).foldl
        (fun best dj =>
          let i := alo + di
          let j := blo + dj
          let k := lcpLen ((a.drop i).take (ahi - i)) ((b.drop j).take (bhi - j))
          if best.2.2 < k then (i, j, k) else best)
        best)
    (alo, blo, 0)

/-- Total size of all matching blocks found by the recursive divide-and-conquer
of `SequenceMatcher.get_matching_blocks`, fuelled (the top-level call passes
`a.length + b.length`, which bounds the recursion depth). -/
def matchingBlocksTotal (a b : Str) : Nat → Nat → Nat → Nat → Nat → Nat
  | 0, _, _, _, _ => 0
  | fuel + 1, alo, ahi, blo, bhi =>
    let x := findLongestBlock a b alo ahi blo bhi
    let i := x.1
    let j := x.2.1
    let k := x.2.2
    if k = 0 then 0
    else
      k + (if alo < i && blo < j then matchingBlocksTotal a b fuel alo i blo j else 0)
        + (if i + k < ahi && j + k < bhi then matchingBlocksTotal a b fuel (i + k) ahi (j + k) bhi else 0)

/-- `difflib.SequenceMatcher(None, a, b).ratio()`: `2·M / (len a + len b)` where
`M` is the total matched size; `1` when both strings are empty. -/
def ratioVal (a b : Str) : ℚ :=
  if a.length + b.length = 0 then 1
  else (2 * (matchingBlocksTotal a b (a.length + b.length) 0 a.length 0 b.length) : ℚ)
        / ((a.length : ℚ) + (b.length : ℚ))

/-- The threshold test `0.8 ≤ ratio` computed on integers: the ratio is
`2·M / (len a + len b)`, so the comparison amounts to
`4·(len a + len b) ≤ 10·M` (both strings empty giving ratio `1`).
`ratioGe45_iff` below proves this Boolean equal to the rational comparison. -/
def ratioGe45 (a b : Str) : Bool :=
  let lab := a.length + b.length
  if lab = 0 then true
  else 4 * lab ≤ 10 * matchingBlocksTotal a b lab 0 a.length 0 b.length

/-- `SkillsMatcher._check_fuzzy_match` with the default threshold `0.8`: some
resume skill has similarity ratio at least `0.8` with the required skill, or one
of the two strings contains the other. -/
def check_fuzzy_match (req_skill : Str) (resume_skills : List Str) : Bool :=
  resume_skills.any fun resume_skill =>
    ratioGe45 req_skill resume_skill
      || isSubstr req_skill resume_skill || isSubstr resume_skill req_skill

/-- One iteration of the `find_matching_skills` loop: a required skill is kept
when it matches directly (case-insensitively), by synonym, or fuzzily. -/
def skillMatches (resume_skills_lower : List Str) (req_skill : Str) : Bool :=
  let req_skill_lower := toLowerStr req_skill
  resume_skills_lower.contains req_skill_lower
    || check_synonym_match req_skill_lower resume_skills_lower
    || check_fuzzy_match req_skill_lower resume_skills_lower

/-- `SkillsMatcher.find_matching_skills`: keeps, in order and with original
casing, each required skill that matches the resume skills. -/
def find_matching_skills (resume_skills job_requirements : List Str) : List Str :=
  job_requirements.filter (skillMatches (resume_skills.map toLowerStr))

/-- `SkillsMatcher.get_missing_skills`: required skills not in the matching list. -/
def get_missing_skills (resume_skills job_requirements : List Str) : List Str :=
  let matching_skills := find_matching_skills resume_skills job_requirements
  job_requirements.filter fun skill => !(matching_skills.contains skill)

/-- `SkillsMatcher.calculate_match_score`: `|matched| / |required|`, and `0`
when the requirement list is empty (the division is never executed then). -/
def calculate_match_score (resume_skills job_requirements : List Str) : ℚ :=
  if job_requirements = [] then 0
  else ((find_matching_skills resume_skills job_requirements).length : ℚ)
        / (job_requirements.length : ℚ)

/-- Round half to even, the rounding mode of Python `round`. -/
def roundHalfEven (x : ℚ) : ℤ :=
  if x - ((⌊x⌋ : ℤ) : ℚ) < 1/2 then ⌊x⌋
  else if 1/2 < x - ((⌊x⌋ : ℤ) : ℚ) then ⌊x⌋ + 1
  else if ⌊x⌋ % 2 = 0 then ⌊x⌋ else ⌊x⌋ + 1

/-- Python `round(x, 1)` on exact rationals. -/
def pyRound1 (x : ℚ) : ℚ := ((roundHalfEven (10 * x) : ℤ) : ℚ) / 10

/-- Keyword vocabulary of `SkillsMatcher._categorize_technical_skills`. -/
def technical_keywords : List Str :=
  ["programming".data, "language".data, "framework".data, "library".data,
   "database".data, "cloud".data, "devops".data, "api".data, "web".data,
   "mobile".data, "software".data, "system".data, "network".data,
   "security".data, "testing".data, "deployment".data, "version control".data]

/-- Fixed technology names of `SkillsMatcher._categorize_technical_skills`. -/
def common_tech_names : List Str :=
  ["python".data, "java".data, "javascript".data, "react".data, "sql".data,
   "aws".data, "docker".data]

/-- `SkillsMatcher._categorize_technical_skills`. -/
def categorize_technical_skills (skills : List Str) : List Str :=
  skills.filter fun skill =>
    let skill_lower := toLowerStr skill
    technical_keywords.any (fun keyword => isSubstr keyword skill_lower)
      || common_tech_names.any (fun tech => isSubstr tech skill_lower)

/-- Keyword vocabulary of `SkillsMatcher._categorize_soft_skills`. -/
def soft_keywords : List Str :=
  ["communication".data, "leadership".data, "teamwork".data, "problem solving".data,
   "analytical".data, "creative".data, "management".data, "organization".data,
   "time management".data, "adaptability".data, "collaboration".data,
   "presentation".data, "negotiation".data]

/-- `SkillsMatcher._categorize_soft_skills`. -/
def categorize_soft_skills (skills : List Str) : List Str :=
  skills.filter fun skill =>
    soft_keywords.any fun keyword => isSubstr keyword (toLowerStr skill)

/-- `SkillsMatcher._generate_recommendations`, over the raw (0–1) score. -/
def generate_recommendations (missing_skills : List Str) (match_score : ℚ) : List Str :=
  (if match_score < 3/10 then
    ["Consider gaining more of the required skills before applying".data]
   else if match_score < 6/10 then
    ["You have some matching skills. Consider highlighting transferable experience".data]
   else
    ["Strong skill match! Emphasize your relevant experience".data])
  ++ (if missing_skills ≠ [] then
        ["Consider learning: ".data ++ joinSep ", ".data (missing_skills.take 3)]
      else [])
  ++ (if 8/10 < match_score then
        ["Excellent match! You\x27re well-qualified for this position".data]
      else [])

/-- The dictionary returned by `SkillsMatcher.get_skill_analysis`. -/
structure SkillAnalysis where
  match_score : ℚ
  matching_skills : List Str
  missing_skills : List Str
  total_required : Nat
  total_matched : Nat
  technical_skills : List Str
  soft_skills : List Str
  recommendations : List Str
deriving DecidableEq

/-- `SkillsMatcher.get_skill_analysis`: the reported score is the raw score
converted to a percentage and rounded to one decimal. -/
def get_skill_analysis (resume_skills job_requirements : List Str) : SkillAnalysis :=
  let matching_skills := find_matching_skills resume_skills job_requirements
  let missing_skills := get_missing_skills resume_skills job_requirements
  let match_score := calculate_match_score resume_skills job_requirements
  { match_score := pyRound1 (match_score * 100)
    matching_skills := matching_skills
    missing_skills := missing_skills
    total_required := job_requirements.length
    total_matched := matching_skills.length
    technical_skills := categorize_technical_skills matching_skills
    soft_skills := categorize_soft_skills matching_skills
    recommendations := generate_recommendations missing_skills match_score }

/-- The priority markers of `SkillsMatcher.get_skill_priority_ranking`. -/
def priorityMarkers : List Str :=
  ["required".data, "essential".data, "must have".data, "critical".data]

/-- Non-emptiness of `re.findall(r'(?:required|essential|must have|critical).*?SKILL', text)`
(no DOTALL, so the gap may not contain a newline): some marker occurrence is
followed, on the same line, by an occurrence of the skill. -/
def requiredContext (text skill : Str) : Bool :=
  (List.range (text.length + 1)).any fun i =>
    priorityMarkers.any fun m =>
      m.isPrefixOf (text.drop i) &&
      (let rest := (text.drop i).drop m.length
       (List.range (rest.length + 1)).any fun j =>
         ((rest.take j).all (fun c => c ≠ '\n')) && skill.isPrefixOf (rest.drop j))

/-- The composite priority score of one skill in
`SkillsMatcher.get_skill_priority_ranking`: 10 per mention in the lowered job
text, plus 20 when the skill occurs in the first 200 characters, plus 30 when a
required/essential/must-have/critical marker precedes it on the same line. -/
def priorityScoreOf (job_text skill : Str) : Nat :=
  let skill_lower := toLowerStr skill
  let job_text_lower := toLowerStr job_text
  pyCount job_text_lower skill_lower * 10
    + (if isSubstr skill_lower (toLowerStr (job_text.take 200)) then 20 else 0)
    + (if requiredContext job_text_lower skill_lower then 30 else 0)

/-- Stable descending insertion: `x` is placed after every strictly larger
score and before every equal or smaller one, so equal scores keep input order. -/
def insertDesc (x : Str × Nat) : List (Str × Nat) → List (Str × Nat)
  | [] => [x]
  | y :: ys => if x.2 < y.2 then y :: insertDesc x ys else x :: y :: ys

/-- Stable sort by descending score, modelling Python
`sorted(pairs, key=score, reverse=True)` (which is stable). -/
def sortDescStable : List (Str × Nat) → List (Str × Nat)
  | [] => []
  | x :: xs => insertDesc x (sortDescStable xs)

/-- `SkillsMatcher.get_skill_priority_ranking`. -/
def get_skill_priority_ranking (job_requirements : List Str) (job_text : Str) :
    List (Str × Nat) :=
  sortDescStable (job_requirements.map fun skill => (skill, priorityScoreOf job_text skill))

/-! ## JobAnalyzer skill-fragment filtering (`backend/models/job_analyzer.py`) -/

/-- The separators of `JobAnalyzer._parse_skills_from_text`
(`re.split(r'[,;•\-\n\t]+', text)`). -/
def isJobSkillSep (c : Char) : Bool :=
  c = ',' || c = ';' || c = '•' || c = '-' || c = '\n' || c = '\t'

/-- The filler phrases of `JobAnalyzer._parse_skills_from_text`. -/
def skip_phrases : List Str :=
  ["experience".data, "knowledge".data, "understanding".data, "proficiency".data,
   "years".data, "minimum".data, "required".data, "preferred".data,
   "must have".data, "should have".data, "ability to".data, "strong".data,
   "excellent".data]

/-- The retention test of `JobAnalyzer._parse_skills_from_text`: the stripped
fragment is non-empty, longer than 2 and shorter than 50 characters, contains no
filler phrase, and is not a pure digit string. -/
def keepSkillFragment (skill : Str) : Bool :=
  skill ≠ [] && 2 < skill.length && skill.length < 50
    && !(skip_phrases.any fun phrase => isSubstr phrase (toLowerStr skill))
    && !(pyIsDigit skill)

/-- `JobAnalyzer._parse_skills_from_text`: split a requirements block on
separator runs, strip each fragment, and keep those passing the retention test. -/
def parse_skills_from_text (text : Str) : List Str :=
  ((splitSepRuns isJobSkillSep text).map pyStrip).filter keepSkillFragment

/-! ## ResumeParser (`backend/models/resume_parser.py`) -/

/-- The curated skill vocabulary `ResumeParser.skills_keywords`. -/
def skills_keywords : List Str :=
  ["python".data, "javascript".data, "java".data, "c++".data, "c#".data,
   "php".data, "ruby".data, "go".data, "rust".data, "typescript".data,
   "swift".data, "kotlin".data, "scala".data, "r".data, "matlab".data,
   "sql".data,
   "html".data, "css".data, "react".data, "angular".data, "vue".data,
   "node.js".data, "express".data, "django".data, "flask".data, "spring".data,
   "laravel".data, "rails".data, "asp.net".data,
   "mysql".data, "postgresql".data, "mongodb".data, "redis".data,
   "elasticsearch".data, "oracle".data, "sqlite".data, "cassandra".data,
   "dynamodb".data,
   "aws".data, "azure".data, "gcp".data, "docker".data, "kubernetes".data,
   "jenkins".data, "terraform".data, "ansible".data, "git".data, "gitlab".data,
   "github".data,
   "machine learning".data, "deep learning".data, "tensorflow".data,
   "pytorch".data, "scikit-learn".data, "pandas".data, "numpy".data,
   "matplotlib".data, "seaborn".data, "jupyter".data,
   "project management".data, "agile".data, "scrum".data, "leadership".data,
   "communication".data, "problem solving".data, "analytical thinking".data]

/-- Characters allowed in the local part of the email pattern
`[A-Za-z0-9._%+-]`. -/
def emailLocalChar (c : Char) : Bool :=
  c.isAlphanum || c = '.' || c = '_' || c = '%' || c = '+' || c = '-'

/-- Characters allowed in the domain part of the email pattern `[A-Za-z0-9.-]`. -/
def emailDomainChar (c : Char) : Bool := c.isAlphanum || c = '.' || c = '-'

/-- Models a match of the email regex
`\b[A-Za-z0-9._%+-]+@[A-Za-z0-9.-]+\.[A-Z|a-z]{2,}\b` anchored at the start of
`tail`: a maximal local-part run, an at sign, and a dotted domain whose final
label is alphabetic of length at least 2. -/
def emailAt (tail : Str) : Option Str :=
  let lp := tail.takeWhile emailLocalChar
  if lp = [] then none
  else
    match tail.drop lp.length with
    | '@' :: rest =>
      let dom := rest.takeWhile emailDomainChar
      let lastLabel := (dom.reverse.takeWhile fun c => c ≠ '.').reverse
      if dom.contains '.' && lastLabel.length < dom.length
          && 2 ≤ lastLabel.length && lastLabel.all Char.isAlpha then
        some (lp ++ '@' :: dom)
      else none
    | _ => none

/-- First match of the email pattern in the text (word boundary on the left). -/
def findEmail (s : Str) : Option Str :=
  (List.range (s.length + 1)).findSome? fun i =>
    if i = 0 || !(emailLocalChar (s.getD (i - 1) ' ')) then emailAt (s.drop i)
    else none

/-- Separator class `[-.\s]` of the phone pattern. -/
def phoneSep (c : Char) : Bool := c = '-' || c = '.' || isPyWs c

/-- Consume exactly `n` digits. -/
def eatDigits (n : Nat) (s : Str) : Option Str :=
  let d := s.takeWhile Char.isDigit
  if n ≤ d.length then some (s.drop n) else none

/-- The mandatory core `\(?\d{3}\)?[-.\s]?\d{3}[-.\s]?\d{4}` of the phone
pattern, anchored at the start of `s`. -/
def phoneCoreAt (s : Str) : Bool :=
  let s := match s with | '(' :: r => r | _ => s
  match eatDigits 3 s with
  | none => false
  | some s =>
    let s := match s with | ')' :: r => r | _ => s
    let s := match s with | c :: r => if phoneSep c then r else c :: r | [] => []
    match eatDigits 3 s with
    | none => false
    | some s =>
      let s := match s with | c :: r => if phoneSep c then r else c :: r | [] => []
      (eatDigits 4 s).isSome

/-- Models a match of the phone pattern
`(\+?\d{1,3}[-.\s]?)?\(?\d{3}\)?[-.\s]?\d{3}[-.\s]?\d{4}` anchored at the start
of `s`, returning the text of the first (country-code) group, which is what
`re.findall` with one group reports; the greedy alternatives of the optional
group are tried longest-first as the regex engine does. -/
def phoneMatchAt (s : Str) : Option Str :=
  let plusPart : Str := match s with | '+' :: _ => ['+'] | _ => []
  let afterPlus := s.drop plusPart.length
  let digits := (afterPlus.takeWhile Char.isDigit).take 3
  let groupCandidates : List Str :=
    ((List.range (digits.length + 1)).reverse.map fun n =>
      let base := plusPart ++ digits.take n
      match afterPlus.drop n with
      | c :: _ => if phoneSep c ∧ 0 < n then [base ++ [c], base] else [base]
      | [] => [base]).flatten
  (groupCandidates.filter fun g => g = [] || plusPart.length < g.length).findSome? fun g =>
    if phoneCoreAt (s.drop g.length) then some g else none

/-- First match of the phone pattern; the stored value is the country-code
group text (possibly empty), mirroring `re.findall` with a single group. -/
def findPhone (s : Str) : Option Str :=
  (List.range (s.length + 1)).findSome? fun i => phoneMatchAt (s.drop i)

/-- Word characters plus dash, the class `[\w-]` used for profile handles. -/
def handleChar (c : Char) : Bool := c.isAlphanum || c = '_' || c = '-'

/-- Models `re.findall(pat + handle, text, re.IGNORECASE)` for the LinkedIn and
GitHub URL patterns: a case-insensitive literal followed by a non-empty handle
run; returns the matched text in its original casing. -/
def findUrlHandle (pat : Str) (s : Str) : Option Str :=
  (List.range (s.length + 1)).findSome? fun i =>
    let tail := s.drop i
    if pat.isPrefixOf (toLowerStr tail) then
      let h := (tail.drop pat.length).takeWhile handleChar
      if h ≠ [] then some (tail.take (pat.length + h.length)) else none
    else none

/-- `linkedin\.com/in/[\w-]+`, case-insensitive. -/
def findLinkedin (s : Str) : Option Str := findUrlHandle "linkedin.com/in/".data s

/-- `github\.com/[\w-]+`, case-insensitive. -/
def findGithub (s : Str) : Option Str := findUrlHandle "github.com/".data s

/-- One word of a candidate name line: after removing every period, non-empty
and purely alphabetic (`word.replace('.', '').isalpha()`). -/
def nameWordOk (w : Str) : Bool :=
  let w2 := w.filter fun c => c ≠ '.'
  w2 ≠ [] && w2.all Char.isAlpha

/-- The name heuristic of `ResumeParser._extract_contact_info`: the first of the
first five lines that, stripped, is non-empty, has at most 4 whitespace-separated
words, and whose words are all alphabetic up to periods. -/
def extractName (text : Str) : Option Str :=
  ((splitLinesNl text).take 5).findSome? fun line =>
    let l := pyStrip line
    if l ≠ [] && (pySplitWs l).length ≤ 4 && (pySplitWs l).all nameWordOk then some l
    else none

/-- The contact dictionary: every key is created by the parser, so each field is
`some` of the (possibly absent) extracted value; `none` models a missing key,
which the parser never produces but a hand-built dictionary may. -/
structure ContactDict where
  emailEntry : Option (Option Str) := none
  phoneEntry : Option (Option Str) := none
  nameEntry : Option (Option Str) := none
  linkedinEntry : Option (Option Str) := none
  githubEntry : Option (Option Str) := none
deriving DecidableEq

/-- `ResumeParser._extract_contact_info`: all five keys are always present. -/
def extract_contact_info (text : Str) : ContactDict :=
  { emailEntry := some (findEmail text)
    phoneEntry := some (findPhone text)
    nameEntry := some (extractName text)
    linkedinEntry := some (findLinkedin text)
    githubEntry := some (findGithub text) }

/-- After a section heading: consume the colon run of `[:]*`, then the
whitespace of `\s*\n` — the match succeeds exactly when the whitespace run after
the colons contains a newline, and consumes up to and including its last
newline. Returns the remainder on success. -/
def afterHeading (s : Str) : Option Str :=
  let s1 := s.dropWhile fun c => c = ':'
  let w := s1.takeWhile isPyWs
  let afterLastNl := (w.reverse.takeWhile fun c => c ≠ '\n').length
  if w.contains '\n' then some (s1.drop (w.length - afterLastNl)) else none

/-- The blank-line terminator `\n\s*\n` matches at the head of `rest`. -/
def blankLineTermAt (rest : Str) : Bool :=
  match rest with
  | '\n' :: r => (r.takeWhile isPyWs).contains '\n'
  | _ => false

/-- Lazy body capture of a section pattern `(.*?)(?:\n\s*\n|\nTERM|$)` (with
`re.DOTALL`): everything up to the earliest blank line or extra terminator, or
to the end of the string. `term2` receives what follows a newline. -/
def captureLazy (term2 : Str → Bool) (rem : Str) : Str :=
  rem.take (((List.range (rem.length + 1)).find? fun e =>
    e = rem.length || blankLineTermAt (rem.drop e) ||
      (match rem.drop e with | '\n' :: r => term2 r | _ => false)).getD rem.length)

/-- Extra terminator `\n[A-Z]` of the skills and summary section patterns;
under `re.IGNORECASE` the class `[A-Z]` matches any ASCII letter. -/
def letterTerm (r : Str) : Bool :=
  match r with
  | c :: _ => c.isAlpha
  | [] => false

/-- Extra terminator made of literal alternatives (for example
`\n(?:education|skills|projects)`), case-insensitive. -/
def wordsTerm (ws : List Str) (r : Str) : Bool :=
  ws.any fun w => w.isPrefixOf (toLowerStr r)

/-- Models the leading match of the section regexes
`(?:KEY1|KEY2|…)[:]*\s*\n(.*?)(?:\n\s*\n|EXTRA|$)` with
`re.IGNORECASE | re.DOTALL`: scan for the first position where some heading
alternative is followed by colons and a newline, and capture the body lazily.
The parsers iterate over `re.findall`; the pipeline inputs exercised here have
at most one section per heading, so the model keeps the first. -/
def findSectionBody (keys : List Str) (term2 : Str → Bool) (text : Str) : Option Str :=
  (List.range (text.length + 1)).findSome? fun i =>
    keys.findSome? fun k =>
      if k.isPrefixOf (toLowerStr (text.drop i)) then
        match afterHeading (text.drop (i + k.length)) with
        | some rem => some (captureLazy term2 rem)
        | none => none
      else none

/-- `ResumeParser._extract_skills`: the vocabulary pass (case-insensitive
substring) merged with the skills-section pass (split on `[,•\-\n\t]+`, keep
non-empty fragments under 50 characters), title-cased and deduplicated. -/
def extract_skills (text : Str) : List Str :=
  let text_lower := toLowerStr text
  let keywordPass :=
    (skills_keywords.filter fun skill => isSubstr (toLowerStr skill) text_lower).map pyTitle
  let sectionPass :=
    match findSectionBody
        ["skills".data, "skill".data, "technical skills".data,
         "technical skill".data, "competencies".data] letterTerm text with
    | none => []
    | some body =>
      (((splitSepRuns (fun c => c = ',' || c = '•' || c = '-' || c = '\n' || c = '\t')
          (pyStrip body)).map pyStrip).filter
        fun skill => skill ≠ [] && skill.length < 50).map pyTitle
  pyListSet (keywordPass ++ sectionPass)

/-- Role keywords of the job-entry grammar in `ResumeParser._extract_experience`. -/
def roleWords : List Str :=
  ["engineer".data, "developer".data, "manager".data, "analyst".data,
   "specialist".data, "coordinator".data, "director".data, "lead".data,
   "senior".data, "junior".data]

/-- Characters of the title run `[A-Za-z\s]`. -/
def titleRunChar (c : Char) : Bool := c.isAlpha || isPyWs c

/-- Characters of the company run `[A-Za-z\s&.,]`. -/
def companyRunChar (c : Char) : Bool :=
  c.isAlpha || isPyWs c || c = '&' || c = '.' || c = ','

/-- Models the job-entry regex
`([A-Za-z\s]+(?:Engineer|Developer|…))[,\s]*(?:at|@|-)\s*([A-Za-z\s&.,]+)`
(case-insensitive): a role keyword preceded by a non-empty run of letters and
whitespace, then a comma/whitespace run, a connector, and a non-empty company
run. Evaluated in this development only where the section lookup fails. -/
def findJobPairs (body : Str) : List (Str × Str) :=
  (List.range (body.length + 1)).filterMap fun i =>
    roleWords.findSome? fun w =>
      if w.isPrefixOf (toLowerStr (body.drop i)) then
        let titlePre := ((body.take i).reverse.takeWhile titleRunChar).reverse
        if titlePre = [] then none
        else
          let title := titlePre ++ (body.drop i).take w.length
          let rest := (body.drop (i + w.length)).dropWhile fun c => c = ',' || isPyWs c
          let afterConn : Option Str :=
            if ("at".data).isPrefixOf (toLowerStr rest) then some (rest.drop 2)
            else
              match rest with
              | '@' :: r => some r
              | '-' :: r => some r
              | _ => none
          match afterConn with
          | none => none
          | some r =>
            let comp := (r.dropWhile isPyWs).takeWhile companyRunChar
            if comp ≠ [] then some (title, comp) else none
      else none

/-- A work-experience entry dictionary. -/
structure ExpDict where
  titleEntry : Option Str := none
  companyEntry : Option Str := none
  descriptionEntry : Option Str := none
deriving DecidableEq

/-- `ResumeParser._extract_job_description`: scan the section lines; the line
naming both title and company arms collection; afterwards keep bulleted lines,
lines mentioning "responsible", and lines over 30 characters, stopping at the
first blank line; join with spaces. -/
def extract_job_description (text job_title company : Str) : Str :=
  let tl := toLowerStr job_title
  let cl := toLowerStr company
  let step := fun (st : Bool × Bool × List Str) (line : Str) =>
    let found := st.1
    let stopped := st.2.1
    let acc := st.2.2
    if stopped then st
    else
      let l := pyStrip line
      if isSubstr tl (toLowerStr l) && isSubstr cl (toLowerStr l) then (true, false, acc)
      else if found then
        if l ≠ [] && (l.headD ' ' = '-' || l.headD ' ' = '•'
            || isSubstr "responsible".data (toLowerStr l)) then
          (true, false, acc ++ [l])
        else if l ≠ [] && 30 < l.length then (true, false, acc ++ [l])
        else if l = [] then (true, true, acc)
        else st
      else st
  joinSep " ".data ((splitLinesNl text).foldl step (false, false, [])).2.2

/-- `ResumeParser._extract_experience`. -/
def extract_experience (text : Str) : List ExpDict :=
  match findSectionBody ["experience".data, "employment".data, "work history".data]
      (wordsTerm ["education".data, "skills".data, "projects".data]) text with
  | none => []
  | some body =>
    let exp_text := pyStrip body
    (findJobPairs exp_text).map fun tc =>
      { titleEntry := some (pyStrip tc.1)
        companyEntry := some (pyStrip tc.2)
        descriptionEntry := some (extract_job_description exp_text tc.1 tc.2) }

/-- An education entry dictionary. -/
structure EduDict where
  degreeEntry : Option Str := none
  institutionEntry : Option Str := none
  fieldEntry : Option Str := none
deriving DecidableEq

/-- Degree keywords of `ResumeParser._extract_education`. -/
def degreeWords : List Str :=
  ["bachelor".data, "master".data, "phd".data, "doctorate".data,
   "diploma".data, "certificate".data]

/-- Models the degree regex
`(Bachelor|Master|PhD|…)[s]?\s+(?:of|in)?\s+([A-Za-z\s]+)(?:\s+(?:from|at)\s+([A-Za-z\s&.,]+))?`
(case-insensitive): a degree word, optional `s`, whitespace with an optional
connector, and the greedy field run of letters and whitespace.  The greedy field
class contains spaces and letters, so it swallows any `from`/`at` clause and the
optional institution group stays empty, as in the source. Returns
`(degree-word-as-matched, field-run)` pairs. -/
def findDegrees (body : Str) : List (Str × Str) :=
  (List.range (body.length + 1)).filterMap fun i =>
    degreeWords.findSome? fun w =>
      if w.isPrefixOf (toLowerStr (body.drop i)) then
        let dg := (body.drop i).take w.length
        let rest0 := body.drop (i + w.length)
        let rest := match rest0 with
          | 's' :: r => r
          | 'S' :: r => r
          | _ => rest0
        let ws1 := rest.takeWhile isPyWs
        if ws1 = [] then none
        else
          let r2 := rest.drop ws1.length
          let afterConn : Option Str :=
            if ("of ".data).isPrefixOf (toLowerStr r2) || ("in ".data).isPrefixOf (toLowerStr r2) then
              some ((r2.drop 2).dropWhile isPyWs)
            else if 2 ≤ ws1.length then some r2
            else none
          match afterConn with
          | none => none
          | some r3 =>
            let fld := r3.takeWhile fun c => c.isAlpha || isPyWs c
            if fld ≠ [] then some (dg, fld) else none
      else none

/-- `ResumeParser._extract_education`: the institution group is empty under the
greedy field run, so it defaults to the "Not specified" sentinel. -/
def extract_education (text : Str) : List EduDict :=
  match findSectionBody
      ["education".data, "academic background".data, "qualifications".data]
      (wordsTerm ["experience".data, "skills".data, "projects".data]) text with
  | none => []
  | some body =>
    (findDegrees (pyStrip body)).map fun df =>
      { degreeEntry := some (pyStrip (df.1 ++ " in ".data ++ df.2))
        institutionEntry := some ("Not specified".data)
        fieldEntry := some (pyStrip df.2) }

/-- The second summary pattern `^(.*?)(?:\n\s*\n|\nexperience|\neducation|\nskills)`:
the lazy capture from the start of the text to the earliest terminator; no match
when no terminator occurs. -/
def summaryFromStart (text : Str) : Option Str :=
  ((List.range (text.length + 1)).find? fun e =>
    blankLineTermAt (text.drop e) ||
      (match text.drop e with
       | '\n' :: r => wordsTerm ["experience".data, "education".data, "skills".data] r
       | _ => false)).map fun e => text.take e

/-- The paragraph fallback of `ResumeParser._extract_summary`: the first
blank-line-delimited paragraph that, stripped, exceeds 100 characters and
mentions "experience". -/
def summaryParagraphFallback (text : Str) : Str :=
  match (splitOnBlankPair text).findSome? fun par =>
      (let p := pyStrip par
       if 100 < p.length && isSubstr "experience".data (toLowerStr p) then some p
       else none) with
  | some p => p
  | none => "No summary available".data

/-- `ResumeParser._extract_summary`: heading-based section over 50 characters,
else the leading block over 50 characters, else the paragraph fallback, else the
sentinel. -/
def extract_summary (text : Str) : Str :=
  let tryP2 : Str :=
    match summaryFromStart text with
    | some cap => if 50 < (pyStrip cap).length then pyStrip cap else summaryParagraphFallback text
    | none => summaryParagraphFallback text
  match findSectionBody
      ["summary".data, "objective".data, "profile".data, "about".data] letterTerm text with
  | some body => if 50 < (pyStrip body).length then pyStrip body else tryP2
  | none => tryP2

/-- A project entry dictionary. -/
structure ProjDict where
  nameEntry : Option Str := none
  descriptionEntry : Option Str := none
deriving DecidableEq

/-- `ResumeParser._extract_projects`: every bulleted or over-30-character line of
the projects section becomes a project, the display name truncated at 50
characters with an ellipsis. -/
def extract_projects (text : Str) : List ProjDict :=
  match findSectionBody ["projects".data, "project".data, "portfolio".data]
      (wordsTerm ["experience".data, "education".data, "skills".data]) text with
  | none => []
  | some body =>
    (splitLinesNl (pyStrip body)).filterMap fun line =>
      let l := pyStrip line
      if l ≠ [] && (l.headD ' ' = '-' || l.headD ' ' = '•' || 30 < l.length) then
        some { nameEntry := some (if 50 < l.length then l.take 50 ++ "...".data else l)
               descriptionEntry := some l }
      else none

/-- The resume dictionary; as with `ContactDict`, `none` models an absent key. -/
structure ResumeDict where
  contactEntry : Option ContactDict := none
  skillsEntry : Option (List Str) := none
  experienceEntry : Option (List ExpDict) := none
  educationEntry : Option (List EduDict) := none
  summaryEntry : Option Str := none
  projectsEntry : Option (List ProjDict) := none
deriving DecidableEq

/-- `ResumeParser.parse_resume`: a total function; every key of the result is
present (the `try/except` of the source is unreachable for the embedded total
sub-extractors, whose absence of failure it models). -/
def parse_resume (text : Str) : ResumeDict :=
  { contactEntry := some (extract_contact_info text)
    skillsEntry := some (extract_skills text)
    experienceEntry := some (extract_experience text)
    educationEntry := some (extract_education text)
    summaryEntry := some (extract_summary text)
    projectsEntry := some (extract_projects text) }

/-! ## CoverLetterGenerator (`backend/models/cover_letter_generator.py`) -/

/-- Render a Python value that is either a string or `None` inside an f-string:
`None` prints as the four characters `None`. -/
def pyRenderOptStr (v : Option Str) : Str :=
  match v with
  | none => "None".data
  | some s => s

/-- The company dictionary of a job profile; the analyzer can store `None` for
the name, so the inner value is again optional. -/
structure CompanyDict where
  nameEntry : Option (Option Str) := none
  descriptionEntry : Option (Option Str) := none
deriving DecidableEq

/-- The job dictionary fields consumed by the fallback letter and the
improvement suggestions. -/
structure JobDict where
  companyEntry : Option CompanyDict := none
  jobTitleEntry : Option Str := none
  requiredSkillsEntry : Option (List Str) := none
deriving DecidableEq

/-- `resume_data.get('contact_info', {}).get('name', 'Applicant')` as rendered in
the letter f-string: the `'Applicant'` default applies only when a key is
absent; a key present with value `None` renders as the literal `None`. -/
def renderedName (resume_data : ResumeDict) : Str :=
  match resume_data.contactEntry with
  | none => "Applicant".data
  | some contact =>
    match contact.nameEntry with
    | none => "Applicant".data
    | some v => pyRenderOptStr v

/-- `job_data.get('company_info', {}).get('name', 'your company')`, rendered. -/
def renderedCompany (job_data : JobDict) : Str :=
  match job_data.companyEntry with
  | none => "your company".data
  | some company =>
    match company.nameEntry with
    | none => "your company".data
    | some v => pyRenderOptStr v

/-- `CoverLetterGenerator._format_experience_for_prompt`. -/
def format_experience_for_prompt (experience : List ExpDict) : Str :=
  if experience = [] then "No professional experience listed".data
  else
    joinSep "; ".data ((experience.take 3).map fun exp =>
      (exp.titleEntry.getD ("Position".data)) ++ " at ".data
        ++ (exp.companyEntry.getD ("Company".data)) ++ ": ".data
        ++ (exp.descriptionEntry.getD ("Professional experience".data)).take 100)

/-- Everything of the fallback letter before the signature name: the f-string of
`CoverLetterGenerator._internal_fallback_cover_letter` up to and including
`"Sincerely,\n"`. -/
def fallbackLetterBody (resume_data : ResumeDict) (job_data : JobDict) : Str :=
  let job_title := job_data.jobTitleEntry.getD ("the position".data)
  let company_name := renderedCompany job_data
  let skills := joinSep ", ".data ((resume_data.skillsEntry.getD []).take 5)
  let experience := format_experience_for_prompt (resume_data.experienceEntry.getD [])
  let summary := resume_data.summaryEntry.getD
    ("a motivated and results-driven professional".data)
  "Dear Hiring Manager at ".data ++ company_name
    ++ ",\n\nI am writing to express my interest in the ".data ++ job_title
    ++ " position at ".data ++ company_name
    ++ ". With a background in ".data ++ experience
    ++ " and skills including ".data ++ skills
    ++ ", I am confident in my ability to make a meaningful contribution to your team.\n\n".data
    ++ summary
    ++ ". I am passionate about driving results and collaborating with talented professionals, and I am eager to bring my expertise and enthusiasm to ".data
    ++ company_name
    ++ ".\n\nI would welcome the opportunity to discuss how my experience and skills align with your needs and how I can contribute to the continued success of your team.\n\nThank you for considering my application.\n\n".data
    ++ "Sincerely,\n".data

/-- `CoverLetterGenerator._internal_fallback_cover_letter`: the fixed letter,
signed with the rendered name, plus an optional postscript when the custom
message is truthy (non-empty). -/
def internal_fallback_cover_letter (resume_data : ResumeDict) (job_data : JobDict)
    (custom_message : Option Str) : Str :=
  let cover_letter := fallbackLetterBody resume_data job_data ++ renderedName resume_data
  match custom_message with
  | some m => if m ≠ [] then cover_letter ++ "\n\nP.S.: ".data ++ m else cover_letter
  | none => cover_letter

/-- Replace every occurrence of a non-empty pattern, fuelled by the text length
(Python `str.replace`). -/
def replaceAllAux (pat rep : Str) : Nat → Str → Str
  | 0, s => s
  | _, [] => []
  | fuel + 1, c :: rest =>
    if pat.isPrefixOf (c :: rest) then
      rep ++ replaceAllAux pat rep fuel ((c :: rest).drop pat.length)
    else c :: replaceAllAux pat rep fuel rest

/-- Python `s.replace(pat, rep)` for non-empty patterns. -/
def replaceAll (s pat rep : Str) : Str :=
  if pat = [] then s else replaceAllAux pat rep s.length s

/-- `CoverLetterGenerator._post_process_cover_letter`: trim, then substitute the
placeholder tokens when the corresponding value is truthy and present. -/
def post_process_cover_letter (cover_letter : Str) (resume_data : ResumeDict)
    (job_data : JobDict) : Str :=
  let cl := pyStrip cover_letter
  let name : Option Str :=
    match resume_data.contactEntry with
    | none => none
    | some contact => (contact.nameEntry.getD none)
  let cl :=
    match name with
    | some n =>
      if n ≠ [] && isSubstr ("[Your Name]".data) cl then replaceAll cl ("[Your Name]".data) n
      else cl
    | none => cl
  let company : Option Str :=
    match job_data.companyEntry with
    | none => none
    | some company => (company.nameEntry.getD none)
  match company with
  | some c =>
    if c ≠ [] && isSubstr ("[Company Name]".data) cl then replaceAll cl ("[Company Name]".data) c
    else cl
  | none => cl

/-- `CoverLetterGenerator._generate_improvement_suggestions`; the set difference
of lower-cased skills is modelled by a deduplicated filtered list (CPython set
order is unspecified; only membership and emptiness matter downstream). -/
def generate_improvement_suggestions (resume_data : ResumeDict) (job_data : JobDict) :
    List Str :=
  let resume_skills := (resume_data.skillsEntry.getD []).map toLowerStr
  let required_skills := (job_data.requiredSkillsEntry.getD []).map toLowerStr
  let missing_skills := pyListSet (required_skills.filter fun s => !(resume_skills.contains s))
  (if missing_skills ≠ [] then
    ["Consider highlighting experience with: ".data
      ++ joinSep ", ".data (missing_skills.take 3)]
   else [])
  ++ (if resume_data.experienceEntry.getD [] = [] then
        ["Consider adding more specific work experience examples".data]
      else [])
  ++ (if resume_data.educationEntry.getD [] = [] then
        ["Ensure educational background is clearly stated".data]
      else [])

/-- The dictionary returned by `CoverLetterGenerator._build_response`. -/
structure LetterResponse where
  success : Bool
  cover_letter : Str
  template_used : Str
  word_count : Nat
  recommendations : List Str
deriving DecidableEq

/-- `CoverLetterGenerator._build_response`: always `success=True`. -/
def build_response (cover_letter_text template_style : Str)
    (resume_data : ResumeDict) (job_data : JobDict) : LetterResponse :=
  { success := true
    cover_letter := cover_letter_text
    template_used := template_style
    word_count := (pySplitWs cover_letter_text).length
    recommendations := generate_improvement_suggestions resume_data job_data }

/-- `CoverLetterGenerator.generate_cover_letter`.  The prompt construction and
the external Gemini call are out of scope per the specification; the provider is
an abstract function of the same inputs the prompt is built from, returning the
generated text or `none` on any invocation failure.  With no credential
configured, or on provider failure, control falls to the deterministic internal
fallback. -/
def generate_cover_letter (gemini_api_key : Option Str)
    (gemini : ResumeDict → JobDict → Str → Option Str → Option Str)
    (resume_data : ResumeDict) (job_data : JobDict)
    (template_style : Str) (custom_message : Option Str) : LetterResponse :=
  match gemini_api_key with
  | some _ =>
    match gemini resume_data job_data template_style custom_message with
    | some generated =>
      build_response (post_process_cover_letter generated resume_data job_data)
        template_style resume_data job_data
    | none =>
      build_response (internal_fallback_cover_letter resume_data job_data custom_message)
        template_style resume_data job_data
  | none =>
    build_response (internal_fallback_cover_letter resume_data job_data custom_message)
      template_style resume_data job_data

/-! ## Helper lemmas -/

lemma mem_pyListSet {l : List Str} : ∀ {x : Str}, x ∈ pyListSet l ↔ x ∈ l := by
  induction l with
  | nil => intro x; simp [pyListSet]
  | cons a as ih =>
    intro x
    show x ∈ (if a ∈ pyListSet as then pyListSet as else a :: pyListSet as) ↔ x ∈ a :: as
    by_cases h : a ∈ pyListSet as
    · rw [if_pos h, List.mem_cons, ih]
      have ha : a ∈ as := ih.mp h
      exact ⟨Or.inr, fun hx => hx.elim (fun hxa => hxa ▸ ha) id⟩
    · rw [if_neg h, List.mem_cons, List.mem_cons, ih]

lemma le_roundHalfEven (x : ℚ) : ⌊x⌋ ≤ roundHalfEven x := by
  unfold roundHalfEven
  split_ifs <;> omega

lemma roundHalfEven_le (x : ℚ) : roundHalfEven x ≤ ⌊x⌋ + 1 := by
  unfold roundHalfEven
  split_ifs <;> omega

lemma roundHalfEven_le_of_le {x : ℚ} {n : ℤ} (h : x ≤ (n : ℚ)) : roundHalfEven x ≤ n := by
  have hf : ⌊x⌋ ≤ n := by
    have h2 := Int.floor_le_floor h
    simpa using h2
  rcases eq_or_lt_of_le hf with heq | hlt
  · have hx : (n : ℚ) ≤ x := by
      rw [← heq]
      exact Int.floor_le x
    have hxn : x = (n : ℚ) := le_antisymm h hx
    subst hxn
    unfold roundHalfEven
    have hfl : ⌊(n : ℚ)⌋ = n := Int.floor_intCast n
    simp only [hfl]
    norm_num
  · have := roundHalfEven_le x
    omega

lemma roundHalfEven_nonneg {x : ℚ} (h : 0 ≤ x) : 0 ≤ roundHalfEven x := by
  have h1 : (0 : ℤ) ≤ ⌊x⌋ := Int.floor_nonneg.mpr h
  have h2 := le_roundHalfEven x
  omega

lemma pyRound1_nonneg {x : ℚ} (h : 0 ≤ x) : 0 ≤ pyRound1 x := by
  unfold pyRound1
  have h1 : (0 : ℤ) ≤ roundHalfEven (10 * x) := roundHalfEven_nonneg (by linarith)
  have h2 : (0 : ℚ) ≤ ((roundHalfEven (10 * x) : ℤ) : ℚ) := by exact_mod_cast h1
  positivity

lemma pyRound1_le_100 {x : ℚ} (h : x ≤ 100) : pyRound1 x ≤ 100 := by
  unfold pyRound1
  have h1 : roundHalfEven (10 * x) ≤ (1000 : ℤ) := by
    apply roundHalfEven_le_of_le
    push_cast
    linarith
  rw [div_le_iff₀ (by norm_num : (0:ℚ) < 10)]
  have h2 : ((roundHalfEven (10 * x) : ℤ) : ℚ) ≤ 1000 := by exact_mod_cast h1
  linarith

lemma pyRound1_zero : pyRound1 0 = 0 := by
  unfold pyRound1 roundHalfEven
  norm_num

lemma ratioGe45_iff (a b : Str) : ratioGe45 a b = true ↔ (4 : ℚ)/5 ≤ ratioVal a b := by
  unfold ratioGe45 ratioVal
  by_cases h : a.length + b.length = 0
  · simp only [h, if_pos]
    norm_num
  · rw [if_neg h, if_neg h]
    have hpos : (0 : ℚ) < (a.length : ℚ) + (b.length : ℚ) := by
      have h0 : 0 < a.length + b.length := Nat.pos_of_ne_zero h
      exact_mod_cast h0
    rw [div_le_div_iff₀ (by norm_num) hpos, decide_eq_true_eq]
    constructor
    · intro hle
      have hle2 : (4 * (a.length + b.length) : ℚ) ≤
          (10 * matchingBlocksTotal a b (a.length + b.length) 0 a.length 0 b.length : ℚ) := by
        exact_mod_cast hle
      push_cast at hle2 ⊢
      linarith
    · intro hle
      have hle2 : (4 * (a.length + b.length) : ℚ) ≤
          (10 * matchingBlocksTotal a b (a.length + b.length) 0 a.length 0 b.length : ℚ) := by
        push_cast at hle ⊢
        linarith
      exact_mod_cast hle2

/-! ## Claim C1 -/

/-- Claim C1: for every list of candidate skills and every list of required
skills, the match score reported by `get_skill_analysis` equals
`round(100 · |matchedSkills| / |requiredSkills|, 1)`, lies in `[0, 100]`, and
equals `0` when the required list is empty (the guard in
`calculate_match_score` means no division by zero is ever performed). -/
theorem c1_match_score_spec (resume_skills job_requirements : List Str) :
    (job_requirements ≠ [] →
      (get_skill_analysis resume_skills job_requirements).match_score =
        pyRound1 (100 *
          ((get_skill_analysis resume_skills job_requirements).matching_skills.length : ℚ)
          / (job_requirements.length : ℚ))) ∧
    0 ≤ (get_skill_analysis resume_skills job_requirements).match_score ∧
    (get_skill_analysis resume_skills job_requirements).match_score ≤ 100 ∧
    (job_requirements = [] →
      (get_skill_analysis resume_skills job_requirements).match_score = 0) := by
  have hms : (get_skill_analysis resume_skills job_requirements).match_score =
      pyRound1 (calculate_match_score resume_skills job_requirements * 100) := rfl
  have hmatch : (get_skill_analysis resume_skills job_requirements).matching_skills =
      find_matching_skills resume_skills job_requirements := rfl
  by_cases hjr : job_requirements = []
  · subst hjr
    have h0 : calculate_match_score resume_skills [] = 0 := rfl
    refine ⟨fun h => absurd rfl h, ?_, ?_, fun _ => ?_⟩ <;>
      simp [hms, h0, pyRound1_zero]
  · have hlen : (0 : ℚ) < (job_requirements.length : ℚ) := by
      have : 0 < job_requirements.length := List.length_pos.mpr hjr
      exact_mod_cast this
    have hle : (find_matching_skills resume_skills job_requirements).length ≤
        job_requirements.length := by
      unfold find_matching_skills
      exact List.length_filter_le _ _
    have hcalc : calculate_match_score resume_skills job_requirements =
        ((find_matching_skills resume_skills job_requirements).length : ℚ)
          / (job_requirements.length : ℚ) := by
      unfold calculate_match_score
      rw [if_neg hjr]
    have hq0 : 0 ≤ calculate_match_score resume_skills job_requirements := by
      rw [hcalc]
      positivity
    have hq1 : calculate_match_score resume_skills job_requirements ≤ 1 := by
      rw [hcalc, div_le_one hlen]
      exact_mod_cast hle
    refine ⟨fun _ => ?_, ?_, ?_, fun h => absurd h hjr⟩
    · rw [hms, hmatch, hcalc]
      congr 1
      ring
    · rw [hms]
      exact pyRound1_nonneg (by linarith)
    · rw [hms]
      exact pyRound1_le_100 (by linarith)

/-- Witness for C1 at a concrete input. -/
theorem c1_match_score_spec_witness :
    ["Python".data, "AWS".data, "SQL".data] ≠ ([] : List Str) ∧
    (get_skill_analysis ["Python".data, "SQL".data]
        ["Python".data, "AWS".data, "SQL".data]).match_score =
      pyRound1 (100 *
        ((get_skill_analysis ["Python".data, "SQL".data]
          ["Python".data, "AWS".data, "SQL".data]).matching_skills.length : ℚ)
        / ((["Python".data, "AWS".data, "SQL".data] : List Str).length : ℚ)) :=
  ⟨by decide,
   (c1_match_score_spec ["Python".data, "SQL".data]
     ["Python".data, "AWS".data, "SQL".data]).1 (by decide)⟩

/-! ## Claim C2 -/

lemma find_matching_sublist (resume_skills job_requirements : List Str) :
    (find_matching_skills resume_skills job_requirements).Sublist job_requirements :=
  List.filter_sublist job_requirements

lemma missing_sublist (resume_skills job_requirements : List Str) :
    (get_missing_skills resume_skills job_requirements).Sublist job_requirements :=
  List.filter_sublist job_requirements

/-- Claim C2: `find_matching_skills` and `get_missing_skills` partition the
required skills — each is a sublist of the requirement list (hence preserves its
order and original casing), every required skill lands in exactly one of the
two, and the two lists are disjoint.  In particular,
`matchSkills({Python, SQL}, [Python, AWS, SQL])` yields
`matchedSkills = [Python, SQL]`, `missingSkills = [AWS]` and a reported score of
`66.7`. -/
theorem c2_partition :
    (∀ resume_skills job_requirements : List Str,
      (find_matching_skills resume_skills job_requirements).Sublist job_requirements ∧
      (get_missing_skills resume_skills job_requirements).Sublist job_requirements ∧
      (∀ x, x ∈ job_requirements ↔
        (x ∈ find_matching_skills resume_skills job_requirements ∨
         x ∈ get_missing_skills resume_skills job_requirements)) ∧
      (∀ x, x ∈ get_missing_skills resume_skills job_requirements →
        x ∉ find_matching_skills resume_skills job_requirements)) ∧
    find_matching_skills ["Python".data, "SQL".data]
      ["Python".data, "AWS".data, "SQL".data] = ["Python".data, "SQL".data] ∧
    get_missing_skills ["Python".data, "SQL".data]
      ["Python".data, "AWS".data, "SQL".data] = ["AWS".data] ∧
    (get_skill_analysis ["Python".data, "SQL".data]
      ["Python".data, "AWS".data, "SQL".data]).match_score = 667/10 := by
  have hscore : (get_skill_analysis ["Python".data, "SQL".data]
      ["Python".data, "AWS".data, "SQL".data]).match_score = 667/10 := by
    have h1 : (get_skill_analysis ["Python".data, "SQL".data]
        ["Python".data, "AWS".data, "SQL".data]).match_score =
        pyRound1 (calculate_match_score ["Python".data, "SQL".data]
          ["Python".data, "AWS".data, "SQL".data] * 100) := rfl
    have hcalc : calculate_match_score ["Python".data, "SQL".data]
        ["Python".data, "AWS".data, "SQL".data] = (2 : ℚ)/3 := by
      unfold calculate_match_score
      rw [if_neg (by decide),
        show find_matching_skills ["Python".data, "SQL".data]
          ["Python".data, "AWS".data, "SQL".data] = ["Python".data, "SQL".data] by decide]
      norm_num
    rw [h1, hcalc]
    have hre : roundHalfEven (10 * ((2 : ℚ)/3 * 100)) = 667 := by
      have hx : (10 : ℚ) * ((2 : ℚ)/3 * 100) = 2000/3 := by norm_num
      rw [hx]
      have hfl : ⌊(2000/3 : ℚ)⌋ = 666 := by
        rw [show (666 : ℤ) = (666 : ℤ) from rfl, Int.floor_eq_iff]
        norm_num
      unfold roundHalfEven
      rw [hfl]
      norm_num
    unfold pyRound1
    rw [hre]
    norm_num
  refine ⟨fun resume_skills job_requirements => ⟨find_matching_sublist _ _,
    missing_sublist _ _, fun x => ?_, fun x hmiss hmatch => ?_⟩, by decide, by decide, hscore⟩
  · constructor
    · intro hx
      by_cases hm : x ∈ find_matching_skills resume_skills job_requirements
      · exact Or.inl hm
      · refine Or.inr ?_
        unfold get_missing_skills
        rw [List.mem_filter]
        refine ⟨hx, ?_⟩
        cases hcc : (find_matching_skills resume_skills job_requirements).contains x with
        | false => rfl
        | true => exact absurd (List.elem_iff.mp hcc) hm
    · rintro (hm | hmiss)
      · exact (find_matching_sublist resume_skills job_requirements).mem hm
      · exact (missing_sublist resume_skills job_requirements).mem hmiss
  · unfold get_missing_skills at hmiss
    rw [List.mem_filter] at hmiss
    have h2 := hmiss.2
    simp only [Bool.not_eq_true'] at h2
    have h3 : (find_matching_skills resume_skills job_requirements).contains x = true :=
      List.elem_iff.mpr hmatch
    rw [h2] at h3
    exact Bool.false_ne_true h3

/-- Witness for C2 at a concrete input. -/
theorem c2_partition_witness :
    "AWS".data ∉ find_matching_skills ["Python".data, "SQL".data]
      ["Python".data, "AWS".data, "SQL".data] :=
  (c2_partition.1 ["Python".data, "SQL".data]
    ["Python".data, "AWS".data, "SQL".data]).2.2.2 "AWS".data (by decide)

/-! ## Claim C4 -/

/-- Claim C4: synonym matching is bidirectional — matching required `JS` against
a candidate set containing `JavaScript` succeeds and vice versa (the matcher
lower-cases both sides first); in general, a (lower-cased) required skill
associated with a synonym-table entry matches as soon as the entry's canonical
form or any of its listed synonyms appears in the (lower-cased) candidate set. -/
theorem c4_synonym_bidirectional :
    find_matching_skills ["JavaScript".data] ["JS".data] = ["JS".data] ∧
    find_matching_skills ["JS".data] ["JavaScript".data] = ["JavaScript".data] ∧
    ∀ req_skill resume_skills main synonyms,
      (main, synonyms) ∈ skill_synonyms →
      (req_skill = main ∨ req_skill ∈ synonyms) →
      (main ∈ resume_skills ∨ ∃ s ∈ synonyms, s ∈ resume_skills) →
      check_synonym_match req_skill resume_skills = true := by
  refine ⟨by decide, by decide, ?_⟩
  intro req rsl main syns hmem hreq hres
  unfold check_synonym_match
  rw [List.any_eq_true]
  refine ⟨(main, syns), hmem, ?_⟩
  rw [Bool.and_eq_true]
  constructor
  · rw [Bool.or_eq_true]
    rcases hreq with rfl | hr
    · exact Or.inl (by simp)
    · exact Or.inr (List.elem_iff.mpr hr)
  · rw [Bool.or_eq_true]
    rcases hres with hm | ⟨s, hs, hsr⟩
    · exact Or.inl (List.elem_iff.mpr hm)
    · refine Or.inr ?_
      rw [List.any_eq_true]
      exact ⟨s, hs, List.elem_iff.mpr hsr⟩

/-- Witness for C4's general synonym rule at a concrete input. -/
theorem c4_synonym_bidirectional_witness :
    check_synonym_match "py".data ["python".data] = true :=
  c4_synonym_bidirectional.2.2 "py".data ["python".data] "python".data ["py".data]
    (by decide) (by decide) (by decide)

/-! ## Claim C5 -/

lemma ratioVal_eval {a b : Str} {la lb m : Nat} (hla : a.length = la) (hlb : b.length = lb)
    (hm : matchingBlocksTotal a b (la + lb) 0 la 0 lb = m) (h : ¬(la + lb = 0)) :
    ratioVal a b = (2 * (m : ℚ)) / ((la : ℚ) + (lb : ℚ)) := by
  unfold ratioVal
  rw [hla, hlb, if_neg h, hm]

/-- Claim C5: for every pair of (lower-cased) skill strings, the fuzzy rule of
`_check_fuzzy_match` succeeds exactly when one string contains the other as a
substring or their SequenceMatcher similarity ratio is at least `0.8`;
consequently `Postgre SQL` vs `PostgreSQL` matches through the ratio branch
(ratio `20/21 ≥ 0.8`, no substring either way), while `Java` vs `JavaScript`
matches through the substring branch (ratio `4/7 < 0.8`). -/
theorem c5_fuzzy_rule :
    (∀ req_skill resume_skill : Str,
      check_fuzzy_match req_skill [resume_skill] = true ↔
        ((4 : ℚ)/5 ≤ ratioVal req_skill resume_skill ∨
         isSubstr req_skill resume_skill = true ∨
         isSubstr resume_skill req_skill = true)) ∧
    ratioVal "postgre sql".data "postgresql".data = 20/21 ∧
    (4 : ℚ)/5 ≤ ratioVal "postgre sql".data "postgresql".data ∧
    isSubstr "postgre sql".data "postgresql".data = false ∧
    isSubstr "postgresql".data "postgre sql".data = false ∧
    find_matching_skills ["PostgreSQL".data] ["Postgre SQL".data] = ["Postgre SQL".data] ∧
    ratioVal "java".data "javascript".data = 4/7 ∧
    ¬ ((4 : ℚ)/5 ≤ ratioVal "java".data "javascript".data) ∧
    isSubstr "java".data "javascript".data = true ∧
    find_matching_skills ["JavaScript".data] ["Java".data] = ["Java".data] := by
  have hpg : ratioVal "postgre sql".data "postgresql".data = 20/21 := by
    rw [ratioVal_eval (by decide) (by decide)
      (show matchingBlocksTotal "postgre sql".data "postgresql".data (11 + 10) 0 11 0 10 = 10
        by decide) (by decide)]
    norm_num
  have hjv : ratioVal "java".data "javascript".data = 4/7 := by
    rw [ratioVal_eval (by decide) (by decide)
      (show matchingBlocksTotal "java".data "javascript".data (4 + 10) 0 4 0 10 = 4
        by decide) (by decide)]
    norm_num
  refine ⟨?_, hpg, by rw [hpg]; norm_num, by decide, by decide, by decide,
    hjv, by rw [hjv]; norm_num, by decide, by decide⟩
  intro req s
  unfold check_fuzzy_match
  rw [List.any_eq_true]
  constructor
  · rintro ⟨x, hx, hcond⟩
    rw [List.mem_singleton] at hx
    subst hx
    rw [Bool.or_eq_true, Bool.or_eq_true] at hcond
    rcases hcond with (hr | hsub) | hsub2
    · exact Or.inl ((ratioGe45_iff _ _).mp hr)
    · exact Or.inr (Or.inl hsub)
    · exact Or.inr (Or.inr hsub2)
  · intro h
    refine ⟨s, List.mem_singleton_self s, ?_⟩
    rw [Bool.or_eq_true, Bool.or_eq_true]
    rcases h with hr | hsub | hsub2
    · exact Or.inl (Or.inl ((ratioGe45_iff _ _).mpr hr))
    · exact Or.inl (Or.inr hsub)
    · exact Or.inr hsub2

/-- Witness for C5's general rule at a concrete input. -/
theorem c5_fuzzy_rule_witness :
    check_fuzzy_match "java".data ["javascript".data] = true :=
  (c5_fuzzy_rule.1 "java".data "javascript".data).mpr (Or.inr (Or.inl (by decide)))

/-! ## Claim C6 (corrected) -/

/-- Counterexample to C6 as stated: the claim asserts that every fragment of
exactly 50 characters containing no filler phrase is retained, but
`_parse_skills_from_text` keeps only fragments strictly shorter than 50
characters (`len(skill) < 50`), so a 50-character filler-free fragment is
discarded. -/
theorem c6_counterexample :
    ¬ (List.replicate 50 'q' ∈ parse_skills_from_text (List.replicate 50 'q')) := by
  decide

/-- Claim C6 (amended): a candidate fragment split from a requirements block is
retained exactly when, after stripping, it has at least 3 and at most 49
characters, contains no filler phrase, and does not consist solely of digits;
equivalently, it is discarded exactly when it is under 3 characters, 50 or more
characters, contains a filler phrase, or is a pure digit string. -/
theorem c6_fragment_filter (text frag : Str) :
    frag ∈ parse_skills_from_text text ↔
      (frag ∈ (splitSepRuns isJobSkillSep text).map pyStrip ∧
       3 ≤ frag.length ∧ frag.length ≤ 49 ∧
       (∀ phrase ∈ skip_phrases, isSubstr phrase (toLowerStr frag) = false) ∧
       frag.all Char.isDigit = false) := by
  unfold parse_skills_from_text
  rw [List.mem_filter]
  unfold keepSkillFragment pyIsDigit
  constructor
  · rintro ⟨hmem, hcond⟩
    simp only [Bool.and_eq_true, decide_eq_true_eq, Bool.not_eq_true'] at hcond
    obtain ⟨⟨⟨⟨hne, h2⟩, h50⟩, hphr⟩, hdig⟩ := hcond
    rw [List.any_eq_false] at hphr
    refine ⟨hmem, by omega, by omega, fun phrase hp => ?_, ?_⟩
    · have := hphr phrase hp
      rwa [Bool.not_eq_true] at this
    · rcases Bool.eq_false_or_eq_true (frag.all Char.isDigit) with h | h
      · exfalso
        rw [Bool.and_eq_false_iff] at hdig
        rcases hdig with hd | hd
        · rw [decide_eq_false_iff_not] at hd
          exact hd hne
        · rw [hd] at h
          exact Bool.false_ne_true h
      · exact h
  · rintro ⟨hmem, h3, h49, hphr, hdig⟩
    refine ⟨hmem, ?_⟩
    have hne : frag ≠ [] := by
      intro h
      rw [h] at h3
      simp at h3
    simp only [Bool.and_eq_true, decide_eq_true_eq, Bool.not_eq_true']
    refine ⟨⟨⟨⟨hne, by omega⟩, by omega⟩, ?_⟩, ?_⟩
    · rw [List.any_eq_false]
      intro phrase hp
      rw [Bool.not_eq_true]
      exact hphr phrase hp
    · rw [Bool.and_eq_false_iff]
      exact Or.inr hdig

/-- Witness for the amended C6 at a concrete input: a short filler-free
non-numeric fragment is retained. -/
theorem c6_fragment_filter_witness :
    "Python".data ∈ parse_skills_from_text "Python".data :=
  (c6_fragment_filter "Python".data "Python".data).mpr
    ⟨by decide, by decide, by decide, by decide, by decide⟩

/-! ## Claim C7 -/

/-- Claim C7: resume extraction is total — the embedded `parse_resume` is a
total function and every key of its result is always present — and on the empty
string every field holds its defined empty/sentinel value: all five contact keys
map to null, the skills/experience/education/projects lists are empty, and the
summary is the `No summary available` sentinel. -/
theorem c7_parse_total_empty :
    (∀ text : Str,
      (parse_resume text).contactEntry.isSome = true ∧
      (parse_resume text).skillsEntry.isSome = true ∧
      (parse_resume text).experienceEntry.isSome = true ∧
      (parse_resume text).educationEntry.isSome = true ∧
      (parse_resume text).summaryEntry.isSome = true ∧
      (parse_resume text).projectsEntry.isSome = true) ∧
    parse_resume [] =
      ⟨some ⟨some none, some none, some none, some none, some none⟩,
       some [], some [], some [], some ("No summary available".data), some []⟩ :=
  ⟨fun _ => ⟨rfl, rfl, rfl, rfl, rfl, rfl⟩, by decide⟩

/-! ## Claim C10 -/

/-- Claim C10: vocabulary skill detection in `_extract_skills` is
case-insensitive substring containment over a list holding the one-character
entry `r` and the two-character entry `go`, so every text containing the letter
`r` (in any case) yields the skill `R`, and every text containing the letter
sequence `go` — even inside a word such as `good` — yields the skill `Go`,
whether or not those languages are mentioned. -/
theorem c10_substring_vocabulary (text : Str) :
    (isSubstr "r".data (toLowerStr text) = true → "R".data ∈ extract_skills text) ∧
    (isSubstr "go".data (toLowerStr text) = true → "Go".data ∈ extract_skills text) := by
  constructor
  · intro h
    simp only [extract_skills]
    rw [mem_pyListSet, List.mem_append]
    refine Or.inl ?_
    rw [List.mem_map]
    refine ⟨"r".data, ?_, by decide⟩
    rw [List.mem_filter]
    exact ⟨by decide, h⟩
  · intro h
    simp only [extract_skills]
    rw [mem_pyListSet, List.mem_append]
    refine Or.inl ?_
    rw [List.mem_map]
    refine ⟨"go".data, ?_, by decide⟩
    rw [List.mem_filter]
    exact ⟨by decide, h⟩

/-- Witness for C10 at a concrete input. -/
theorem c10_substring_vocabulary_witness :
    "R".data ∈ extract_skills "I am a good worker".data ∧
    "Go".data ∈ extract_skills "I am a good worker".data :=
  ⟨(c10_substring_vocabulary "I am a good worker".data).1 (by decide),
   (c10_substring_vocabulary "I am a good worker".data).2 (by decide)⟩

/-! ## Claim C3 -/

lemma append_ne_nil_left {l r : Str} (h : l ≠ []) : l ++ r ≠ [] := by
  intro hc
  exact h (List.append_eq_nil.mp hc).1

lemma append_ne_nil_right {l r : Str} (h : r ≠ []) : l ++ r ≠ [] := by
  intro hc
  exact h (List.append_eq_nil.mp hc).2

lemma fallbackLetterBody_ends (r : ResumeDict) (j : JobDict) :
    ∃ p, fallbackLetterBody r j = p ++ "Sincerely,\n".data :=
  ⟨_, rfl⟩

lemma fallbackLetterBody_ne_nil (r : ResumeDict) (j : JobDict) :
    fallbackLetterBody r j ≠ [] := by
  obtain ⟨p, hp⟩ := fallbackLetterBody_ends r j
  rw [hp]
  exact append_ne_nil_right (by decide)

lemma fallback_letter_ne_nil (r : ResumeDict) (j : JobDict) (cm : Option Str) :
    internal_fallback_cover_letter r j cm ≠ [] := by
  unfold internal_fallback_cover_letter
  cases cm with
  | none => exact append_ne_nil_left (fallbackLetterBody_ne_nil r j)
  | some m =>
    dsimp only
    split
    · exact append_ne_nil_left (append_ne_nil_left (append_ne_nil_left
        (fallbackLetterBody_ne_nil r j)))
    · exact append_ne_nil_left (fallbackLetterBody_ne_nil r j)

lemma fallback_letter_contains_name (r : ResumeDict) (j : JobDict) (cm : Option Str)
    (n : Str)
    (h : ∃ contact, r.contactEntry = some contact ∧ contact.nameEntry = some (some n)) :
    SubstrOf n (internal_fallback_cover_letter r j cm) := by
  obtain ⟨c, hc, hn⟩ := h
  have hname : renderedName r = n := by
    unfold renderedName
    rw [hc]
    dsimp only
    rw [hn]
    rfl
  unfold internal_fallback_cover_letter
  cases cm with
  | none =>
    exact ⟨fallbackLetterBody r j, [], by rw [hname, List.append_nil]⟩
  | some m =>
    dsimp only
    split
    · exact ⟨fallbackLetterBody r j, "\n\nP.S.: ".data ++ m,
        by rw [hname]; simp [List.append_assoc]⟩
    · exact ⟨fallbackLetterBody r j, [], by rw [hname, List.append_nil]⟩

/-- Claim C3: with no generative-service credential configured,
`generate_cover_letter` takes the deterministic fallback and returns
`success = true` with a non-empty letter text that contains the candidate's
name whenever a name was extracted; and `_build_response` sets `success = true`
on every path, so the orchestrator never returns failure once the fallback
path is reached. -/
theorem c3_fallback_success :
    (∀ (gemini : ResumeDict → JobDict → Str → Option Str → Option Str)
       (resume_data : ResumeDict) (job_data : JobDict)
       (template_style : Str) (custom_message : Option Str),
      (generate_cover_letter none gemini resume_data job_data template_style
        custom_message).success = true ∧
      (generate_cover_letter none gemini resume_data job_data template_style
        custom_message).cover_letter ≠ [] ∧
      (∀ n : Str,
        (∃ contact, resume_data.contactEntry = some contact ∧
          contact.nameEntry = some (some n)) →
        SubstrOf n (generate_cover_letter none gemini resume_data job_data
          template_style custom_message).cover_letter)) ∧
    (∀ (gemini_api_key : Option Str)
       (gemini : ResumeDict → JobDict → Str → Option Str → Option Str)
       (resume_data : ResumeDict) (job_data : JobDict)
       (template_style : Str) (custom_message : Option Str),
      (generate_cover_letter gemini_api_key gemini resume_data job_data
        template_style custom_message).success = true) := by
  constructor
  · intro gemini r j style cm
    refine ⟨rfl, ?_, ?_⟩
    · exact fallback_letter_ne_nil r j cm
    · intro n hn
      exact fallback_letter_contains_name r j cm n hn
  · intro key gemini r j style cm
    cases key with
    | none => rfl
    | some k =>
      cases hg : gemini r j style cm with
      | none => simp [generate_cover_letter, hg, build_response]
      | some txt => simp [generate_cover_letter, hg, build_response]

/-- Witness for C3 at a concrete input. -/
theorem c3_fallback_success_witness :
    SubstrOf "Jane Doe".data
      (generate_cover_letter none (fun _ _ _ _ => none)
        ⟨some ⟨some none, some none, some (some "Jane Doe".data), some none, some none⟩,
         some [], some [], some [], some ("An experienced engineer".data), some []⟩
        ⟨none, none, none⟩ "professional".data none).cover_letter :=
  (c3_fallback_success.1 (fun _ _ _ _ => none)
      ⟨some ⟨some none, some none, some (some "Jane Doe".data), some none, some none⟩,
       some [], some [], some [], some ("An experienced engineer".data), some []⟩
      ⟨none, none, none⟩ "professional".data none).2.2 "Jane Doe".data ⟨_, rfl, rfl⟩

/-! ## Claim C9 -/

/-- Claim C9: whenever `ResumeParser` finds no qualifying name line, it stores
the name key with a null value; the dictionary-get default `Applicant` applies
only to an absent key, so the deterministic fallback letter is signed with the
literal rendering `None` of that null value rather than `Applicant`. -/
theorem c9_null_name_signature (text : Str) (job_data : JobDict)
    (h : extractName text = none) :
    renderedName (parse_resume text) = "None".data ∧
    renderedName (parse_resume text) ≠ "Applicant".data ∧
    ∃ p, internal_fallback_cover_letter (parse_resume text) job_data none =
      p ++ "Sincerely,\nNone".data := by
  have hname : renderedName (parse_resume text) = "None".data := by
    unfold renderedName parse_resume extract_contact_info
    dsimp only
    rw [h]
    rfl
  refine ⟨hname, by rw [hname]; decide, ?_⟩
  obtain ⟨p, hp⟩ := fallbackLetterBody_ends (parse_resume text) job_data
  refine ⟨p, ?_⟩
  unfold internal_fallback_cover_letter
  dsimp only
  rw [hp, hname, List.append_assoc]
  congr 1

/-- Witness for C9 at a concrete input: the empty resume has no name line. -/
theorem c9_null_name_signature_witness :
    renderedName (parse_resume []) = "None".data :=
  (c9_null_name_signature [] ⟨none, none, none⟩ (by decide)).1

/-! ## Claim C8 -/

lemma mem_insertDesc {x y : Str × Nat} {l : List (Str × Nat)} :
    y ∈ insertDesc x l ↔ y = x ∨ y ∈ l := by
  induction l with
  | nil => simp [insertDesc]
  | cons a as ih =>
    unfold insertDesc
    split
    · rw [List.mem_cons, ih, List.mem_cons]
      tauto
    · rw [List.mem_cons, List.mem_cons]

lemma insertDesc_sorted {x : Str × Nat} {l : List (Str × Nat)}
    (h : List.Pairwise (fun a b => b.2 ≤ a.2) l) :
    List.Pairwise (fun a b => b.2 ≤ a.2) (insertDesc x l) := by
  induction l with
  | nil => simp [insertDesc]
  | cons a as ih =>
    rw [List.pairwise_cons] at h
    obtain ⟨ha, has⟩ := h
    unfold insertDesc
    split
    · rename_i hlt
      rw [List.pairwise_cons]
      refine ⟨fun y hy => ?_, ih has⟩
      rcases mem_insertDesc.mp hy with rfl | hym
      · exact Nat.le_of_lt hlt
      · exact ha y hym
    · rename_i hge
      rw [List.pairwise_cons]
      refine ⟨fun y hy => ?_, List.pairwise_cons.mpr ⟨ha, has⟩⟩
      rcases List.mem_cons.mp hy with rfl | hym
      · exact Nat.le_of_not_lt hge
      · exact le_trans (ha y hym) (Nat.le_of_not_lt hge)

lemma insertDesc_filter (x : Str × Nat) (l : List (Str × Nat)) (v : Nat) :
    (insertDesc x l).filter (fun p => p.2 == v) =
      (if x.2 = v then [x] else []) ++ l.filter (fun p => p.2 == v) := by
  induction l with
  | nil =>
    by_cases h : x.2 = v
    · have hb : (x.2 == v) = true := beq_iff_eq.mpr h
      simp [insertDesc, List.filter, hb, h]
    · have hb : (x.2 == v) = false := by simp [h]
      simp [insertDesc, List.filter, hb, h]
  | cons a as ih =>
    unfold insertDesc
    split
    · rename_i hlt
      rw [List.filter_cons, List.filter_cons, ih]
      by_cases hav : a.2 = v
      · have hxv : ¬ x.2 = v := by omega
        have hb : (a.2 == v) = true := beq_iff_eq.mpr hav
        simp [hb, hxv]
      · have hb : (a.2 == v) = false := by simp [hav]
        simp [hb]
    · rename_i hge
      rw [List.filter_cons]
      by_cases hxv : x.2 = v
      · have hb : (x.2 == v) = true := beq_iff_eq.mpr hxv
        simp [hb, hxv, List.filter_cons]
      · have hb : (x.2 == v) = false := by simp [hxv]
        simp [hb, hxv, List.filter_cons]

lemma sortDescStable_sorted (l : List (Str × Nat)) :
    List.Pairwise (fun a b => b.2 ≤ a.2) (sortDescStable l) := by
  induction l with
  | nil => simp [sortDescStable]
  | cons x xs ih => exact insertDesc_sorted ih

lemma sortDescStable_filter (l : List (Str × Nat)) (v : Nat) :
    (sortDescStable l).filter (fun p => p.2 == v) = l.filter (fun p => p.2 == v) := by
  induction l with
  | nil => rfl
  | cons x xs ih =>
    show (insertDesc x (sortDescStable xs)).filter _ = _
    rw [insertDesc_filter, ih, List.filter_cons]
    by_cases hxv : x.2 = v
    · simp [hxv]
    · simp [hxv]

lemma mem_sortDescStable {y : Str × Nat} {l : List (Str × Nat)} :
    y ∈ sortDescStable l ↔ y ∈ l := by
  induction l with
  | nil => simp [sortDescStable]
  | cons x xs ih =>
    show y ∈ insertDesc x (sortDescStable xs) ↔ _
    rw [mem_insertDesc, ih, List.mem_cons]

/-- Claim C8: `get_skill_priority_ranking` assigns every required skill the
composite score `10·(mentions in the lowered job text) + 20 (if the skill occurs
in the first 200 characters) + 30 (if a required/essential/must-have/critical
marker precedes it on the same line)`, and returns the pairs sorted by
descending score with ties kept in original input order (a stable sort): the
output is pairwise descending, each output pair carries the composite score of
its skill, and filtering the output and the score-annotated input at any fixed
score value yields identical lists, which pins both the multiset of pairs and
the relative order of equal-scored skills. -/
theorem c8_priority_ranking (job_requirements : List Str) (job_text : Str) :
    List.Pairwise (fun a b => b.2 ≤ a.2)
      (get_skill_priority_ranking job_requirements job_text) ∧
    (∀ p ∈ get_skill_priority_ranking job_requirements job_text,
      p.2 = priorityScoreOf job_text p.1) ∧
    (∀ v : Nat,
      (get_skill_priority_ranking job_requirements job_text).filter
          (fun p => p.2 == v) =
        (job_requirements.map fun skill =>
          (skill, priorityScoreOf job_text skill)).filter (fun p => p.2 == v)) := by
  refine ⟨sortDescStable_sorted _, ?_, fun v => sortDescStable_filter _ v⟩
  intro p hp
  unfold get_skill_priority_ranking at hp
  have hm := mem_sortDescStable.mp hp
  rw [List.mem_map] at hm
  obtain ⟨s, _, rfl⟩ := hm
  rfl

/-- Witness for C8 at a concrete input. -/
theorem c8_priority_ranking_witness :
    (("a".data, 60) : Str × Nat).2 = priorityScoreOf "b b required a".data "a".data :=
  (c8_priority_ranking ["a".data, "b".data] "b b required a".data).2.1
    ("a".data, 60) (by decide)
